import Mathlib

/-!
Verification development for the scorecard-processing core
(`src/backend/app/processing`): a shallow embedding of
`table_detection.py`, `preprocessing_pipeline.py`, `ocr_engine.py` and
`image_operations.py`, together with theorems settling the frozen claims
about grid extraction, the preprocessing pipeline, the two-pass OCR
engine and the image operations.

Pixel-level OpenCV primitives (morphology, contour finding, warping,
recognition) are external native calls; they enter the embedding as
explicit oracle parameters, while every line of Python control flow and
arithmetic around them is translated directly.  Python `int` is `Int`
(arguments that are nonnegative pixel coordinates keep that type so that
subtraction behaves as in Python), Python floats that are exact binary
fractions (the 0.25-degree angle grid, the 0.5 threshold) are `ℚ`, and
Python exceptions are `Except String`.
-/

namespace WhoWon

/-! ## table_detection.py -/

/-- Embedding of `Cell` (table_detection.py, lines 8-18): one grid
rectangle with 0-based row/column indices and a pixel bounding box.  The
mutable OCR fields `text`/`confidence` are filled later and play no role
in the claims. -/
structure Cell where
  row : Nat
  col : Nat
  x : Int
  y : Int
  width : Int
  height : Int
deriving Repr, DecidableEq

/-- Embedding of `extract_cells_from_grid` (table_detection.py, lines
117-164): one `Cell` per pair of consecutive horizontal positions x
consecutive vertical positions, with the Python loop order (rows outer,
columns inner).  The Python code indexes `horizontal_positions[row_idx]`
etc. always in range; `getD _ 0` is that in-range access. -/
def extract_cells_from_grid (horizontal_positions vertical_positions : List Int) :
    List Cell :=
  (List.range (horizontal_positions.length - 1)).flatMap fun row_idx =>
    (List.range (vertical_positions.length - 1)).map fun col_idx =>
      { row := row_idx
        col := col_idx
        x := vertical_positions.getD col_idx 0
        y := horizontal_positions.getD row_idx 0
        width := vertical_positions.getD (col_idx + 1) 0 - vertical_positions.getD col_idx 0
        height := horizontal_positions.getD (row_idx + 1) 0 - horizontal_positions.getD row_idx 0 }

/-- Python `max(c.row for c in cells)` over a nonempty list of naturals:
a left fold of `Nat.max` from 0 agrees with Python's `max` because every
element is nonnegative. -/
def listMax (l : List Nat) : Nat :=
  l.foldl Nat.max 0

/-- Embedding of the `TableGrid` constructor's derived counts
(table_detection.py, lines 31-32): `max(c.row for c in cells) + 1 if
cells else 0`. -/
def num_rows_of (cells : List Cell) : Nat :=
  if cells.isEmpty then 0 else listMax (cells.map Cell.row) + 1

/-- Embedding of `num_cols` (table_detection.py, line 32). -/
def num_cols_of (cells : List Cell) : Nat :=
  if cells.isEmpty then 0 else listMax (cells.map Cell.col) + 1

/-- Embedding of `TableGrid` (table_detection.py, lines 20-32). -/
structure TableGrid where
  horizontal_lines : List (Int × Int × Int × Int)
  vertical_lines : List (Int × Int × Int × Int)
  cells : List Cell
  num_rows : Nat
  num_cols : Nat
deriving Repr, DecidableEq

/-- The `TableGrid.__init__` body: stores the lines and cells and derives
`num_rows`/`num_cols` from the cell list. -/
def TableGrid.make (horizontal_lines vertical_lines : List (Int × Int × Int × Int))
    (cells : List Cell) : TableGrid :=
  { horizontal_lines := horizontal_lines
    vertical_lines := vertical_lines
    cells := cells
    num_rows := num_rows_of cells
    num_cols := num_cols_of cells }

/-- A contour bounding rectangle as returned by `cv2.boundingRect`:
`(x, y, w, h)`, all nonnegative in OpenCV but carried as `Int` to match
Python integer arithmetic. -/
structure PyRect where
  x : Int
  y : Int
  w : Int
  h : Int
deriving Repr, DecidableEq

/-- Insertion of one element into an ascending list. -/
def insertSorted (a : Int) : List Int → List Int
  | [] => [a]
  | b :: l => if a ≤ b then a :: b :: l else b :: insertSorted a l

/-- Insertion sort, ascending. -/
def sortInts : List Int → List Int
  | [] => []
  | a :: l => insertSorted a (sortInts l)

/-- Python `sorted(set(positions))` (table_detection.py, line 106):
the distinct values in ascending order. -/
def py_sorted_set (l : List Int) : List Int :=
  sortInts l.dedup

/-- The duplicate-collapse loop of `find_line_positions`
(table_detection.py, lines 108-111): keep a position only when the list
so far is empty or it is more than 20px from the last kept one. -/
def collapse_near (sorted_positions : List Int) : List Int :=
  sorted_positions.foldl
    (fun filtered pos =>
      match filtered.getLast? with
      | none => filtered ++ [pos]
      | some last => if 20 < (pos - last).natAbs then filtered ++ [pos] else filtered)
    []

/-- Embedding of `find_line_positions` (table_detection.py, lines
66-115).  `cv2.findContours` is external; its output enters as the
`contours` list of bounding rectangles.  For horizontal lines a contour
passes when its width reaches `min_length` and contributes `y + h // 2`;
for vertical lines the height is checked and `x + w // 2` contributed.
The result is sorted, de-duplicated and collapsed within 20px. -/
def find_line_positions (contours : List PyRect) (is_horizontal : Bool)
    (min_length : Int) : List Int :=
  let positions := contours.filterMap fun r =>
    if is_horizontal then
      if min_length ≤ r.w then some (r.y + r.h / 2) else none
    else
      if min_length ≤ r.h then some (r.x + r.w / 2) else none
  collapse_near (py_sorted_set positions)

/-- Embedding of `detect_table` (table_detection.py, lines 166-237) from
the point where the morphological line images have been produced: the
grayscale conversion, inversion and `detect_lines` calls are pixel-level
OpenCV work whose outcome is summarized by the two contour lists (one
per axis) handed to `find_line_positions`.  The minimum line lengths
`width // 8` and `height // 8`, the `< 2` failure check, and the grid
construction are translated directly. -/
def detect_table (width height : Int) (h_contours v_contours : List PyRect) :
    Option TableGrid :=
  let horizontal_positions := find_line_positions h_contours true (width / 8)
  let vertical_positions := find_line_positions v_contours false (height / 8)
  if horizontal_positions.length < 2 ∨ vertical_positions.length < 2 then
    none
  else
    let cells := extract_cells_from_grid horizontal_positions vertical_positions
    let h_lines := horizontal_positions.map fun y => (0, y, width, y)
    let v_lines := vertical_positions.map fun x => (x, 0, x, height)
    some (TableGrid.make h_lines v_lines cells)

/-! ## ocr_engine.py

String helpers mirroring the Python `str` methods used by the engine.
The fixture strings and keyword lists are ASCII, where `Char.isAlpha`,
`Char.isDigit` and `Char.toLower` agree with Python's `str` methods. -/

/-- Python `str.strip()`: drop whitespace from both ends. -/
def py_strip (s : String) : String :=
  String.mk (((s.data.dropWhile Char.isWhitespace).reverse.dropWhile Char.isWhitespace).reverse)

/-- Python `str.lower()` (ASCII). -/
def py_lower (s : String) : String :=
  String.mk (s.data.map Char.toLower)

/-- Helper for `py_split`: walk the characters accumulating the current
word (reversed). -/
def py_split_aux : List Char → List Char → List String
  | [], acc => if acc.isEmpty then [] else [String.mk acc.reverse]
  | c :: cs, acc =>
    if c.isWhitespace then
      if acc.isEmpty then py_split_aux cs []
      else String.mk acc.reverse :: py_split_aux cs []
    else py_split_aux cs (c :: acc)

/-- Python `str.split()` with no argument: split on runs of whitespace,
producing no empty words. -/
def py_split (s : String) : List String :=
  py_split_aux s.data []

/-- The `banned_keywords` set of `is_player_name` (ocr_engine.py, lines
86-92). -/
def banned_keywords : List String :=
  ["handicap", "hcp", "hdcp", "slope", "rating", "par",
   "blue", "white", "green", "red", "gold", "black",
   "yards", "yardage", "tee", "tees", "hole", "total",
   "front", "back", "in", "out", "gross", "net", "score",
   "team", "date", "scorer", "attest", "initials"]

/-- The `rare_chars` string of `is_player_name` (ocr_engine.py, line
123): `@©#$%^&*=+[]{}|\<>_` as a character list. -/
def rare_chars : List Char :=
  ['@', '©', '#', '$', '%', '^', '&', '*', '=', '+',
   '[', ']', '\x7b', '\x7d', '|', '\\', '<', '>', '_']

/-- Embedding of `is_player_name` (ocr_engine.py, lines 72-128).  The
Python parameter may also be `None` (from a failed `ocr_cell`); the
`not text` guard then rejects just as the empty string does, so the
string-typed embedding covers every reachable case. -/
def is_player_name (text : String) (row_index : Nat) : Bool :=
  if text.length < 2 then false
  else if row_index < 5 || 15 < row_index then false
  else
    let text_clean := py_lower (py_strip text)
    let words := py_split text_clean
    if words.any (fun word => banned_keywords.contains word) then false
    else
      let letter_count := text.data.countP Char.isAlpha
      if letter_count < 2 then false
      else if 25 < text.length then false
      else if 3 < words.length then false
      else
        let digit_count := text.data.countP Char.isDigit
        if letter_count < digit_count then false
        else if text.data.any (fun c => rare_chars.contains c) then false
        else true

/-- Non-ASCII characters accepted by Python's `str.isdigit`: Unicode
characters of Numeric_Type Decimal or Digit.  Listed here are the
Latin-1 and superscript/subscript digit forms and the Arabic-Indic and
Devanagari decimal digits; Python accepts further such codepoints
(other scripts' decimal digits, circled digits, …), every one of them
non-ASCII, so enlarging this list toward the full Unicode set changes
no theorem below: the charset theorem treats all of them uniformly
through the `127 < Char.toNat` bound, and the counterexample needs only
`'²'` (superscript two). -/
def py_nonascii_digits : List Char :=
  ['¹', '²', '³',
   '⁰', '⁴', '⁵', '⁶', '⁷', '⁸', '⁹',
   '₀', '₁', '₂', '₃', '₄', '₅', '₆',
   '₇', '₈', '₉',
   '٠', '١', '٢', '٣', '٤', '٥', '٦',
   '٧', '٨', '٩',
   '०', '१', '२', '३', '४', '५', '६',
   '७', '८', '९']

/-- Python `str.isdigit` on one character: true for the ASCII digits
`0`-`9` and for the non-ASCII Unicode digit characters
(`py_nonascii_digits`). -/
def py_isdigit (c : Char) : Bool :=
  c.isDigit || py_nonascii_digits.contains c

/-- The character filter of `ocr_cell`'s score mode (ocr_engine.py, line
370): `c.isdigit() or c in '()'`, with `py_isdigit` as Python's
`str.isdigit` — note that it accepts non-ASCII digit characters, which
the tesseract whitelist does not emit but the filter itself does not
reject. -/
def score_char_ok (c : Char) : Bool :=
  py_isdigit c || c == '(' || c == ')'

/-- Embedding of `ocr_cell` (ocr_engine.py, lines 361-379).  The
`pytesseract.image_to_string` call is an external recognizer; its
outcome for the given cell image and configuration enters as
`recognized` (`.error` when the call raises, caught by the Python
`except` which returns `None`).  In score mode the stripped text is then
filtered to digits and parentheses; the empty result is returned as
`none`, never as `some ""`. -/
def ocr_cell (recognized : Except String String) (mode : String) : Option String :=
  match recognized with
  | .error _ => none
  | .ok raw =>
    let text :=
      if mode = "score" then String.mk ((py_strip raw).data.filter score_char_ok)
      else py_strip raw
    if text = "" then none else some text

/-- Embedding of `find_cell` (ocr_engine.py, lines 430-432): first cell
with the given row and column, if any. -/
def find_cell (cells : List Cell) (row col : Nat) : Option Cell :=
  cells.find? fun c => c.row == row && c.col == col

/-- Python `max(cell.col for cell in cells)` (ocr_engine.py, line 139);
as in `listMax`, the fold from 0 agrees with Python's `max` on the
nonempty lists of nonnegative indices it is applied to. -/
def max_col (cells : List Cell) : Nat :=
  listMax (cells.map Cell.col)

/-- One row of the Pass-2 result: the dict
`{'row': player_row, 'all_values': row_values}`. -/
structure PlayerRow where
  row : Nat
  all_values : List (Option String)
deriving Repr, DecidableEq

/-- Embedding of `extract_player_rows` (ocr_engine.py, lines 133-174).
The pixel work per cell (`extract_cell_inflated`, `preprocess_score_cell`
and the recognizer call inside `ocr_cell`) is summarized by the
`recognized` oracle, giving the raw recognizer outcome for each cell's
processed image; every piece of control flow — the column range
`0..max_col`, the `None` appended for a missing cell, the per-cell
`ocr_cell` in score mode — is translated directly (the debug-image saves
are side effects with no bearing on the result). -/
def extract_player_rows (cells : List Cell) (player_rows : List Nat)
    (recognized : Cell → Except String String) : List PlayerRow :=
  player_rows.map fun player_row =>
    { row := player_row
      all_values := (List.range (max_col cells + 1)).map fun col =>
        match find_cell cells player_row col with
        | none => none
        | some cell => ocr_cell (recognized cell) "score" }

/-- Python `int(q)` for a rational: truncation toward zero. -/
def int_trunc (q : ℚ) : Int :=
  if 0 ≤ q then ⌊q⌋ else ⌈q⌉

/-- The crop rectangle `img[y1:y2, x1:x2]` computed by
`extract_cell_inflated`. -/
structure CropRect where
  x1 : Int
  y1 : Int
  x2 : Int
  y2 : Int
deriving Repr, DecidableEq

/-- Embedding of `extract_cell_inflated` (ocr_engine.py, lines 179-189):
inflate the cell box by `int(width * inflation)` / `int(height *
inflation)` pixels and clamp against 0 and the image shape
(`img.shape[1]` is the width, `img.shape[0]` the height).  Python
computes the inflation with float arithmetic; the exact rational
truncation used here can differ by at most the float rounding of the
product, which never affects the clamping bounds below.  The function
returns the numpy slice at this rectangle; the rectangle itself is the
object of the safety claim. -/
def extract_cell_inflated (img_h img_w : Int) (cell : Cell) (inflation : ℚ) :
    CropRect :=
  let inflate_x := int_trunc ((cell.width : ℚ) * inflation)
  let inflate_y := int_trunc ((cell.height : ℚ) * inflation)
  { x1 := max 0 (cell.x - inflate_x)
    y1 := max 0 (cell.y - inflate_y)
    x2 := min img_w (cell.x + cell.width + inflate_x)
    y2 := min img_h (cell.y + cell.height + inflate_y) }

/-! ## image_operations.py -/

/-- The shape of a numpy image as the code observes it: pixel height and
width, and `channels = none` for a 2-dimensional (single-channel) array
or `some c` for a 3-dimensional array with `c` channels (so
`len(img.shape) == 3` is `channels.isSome`). -/
structure PyImage where
  height : Int
  width : Int
  channels : Option Nat
deriving Repr, DecidableEq

/-- The number of channels an image carries: a 2-D array is one channel.
This is the quantity the spec's channel-count claims speak about. -/
def PyImage.channelCount (img : PyImage) : Nat :=
  img.channels.getD 1

/-- `cv2.cvtColor(img, cv2.COLOR_BGR2GRAY)`: accepts a 3-dimensional
image with 3 or 4 channels and produces the 2-dimensional grayscale
image of the same pixel size; on any other shape OpenCV raises
(`Invalid number of channels in input image`). -/
def cvtColor_BGR2GRAY (img : PyImage) : Except String PyImage :=
  if img.channels = some 3 ∨ img.channels = some 4 then
    .ok { img with channels := none }
  else
    .error "cvtColor: Invalid number of channels in input image"

/-- The metrics dict of `grayscale` (image_operations.py, lines 41-44). -/
structure GrayscaleData where
  original_channels : Nat
  output_channels : Nat
deriving Repr, DecidableEq

/-- Embedding of `grayscale` (image_operations.py, lines 35-45): it
calls `cv2.cvtColor(img, cv2.COLOR_BGR2GRAY)` unconditionally, so the
conversion's failure on non-BGR input propagates; on success the metrics
record `img.shape[2] if len(img.shape) == 3 else 1` original channels
and 1 output channel. -/
def grayscale (img : PyImage) : Except String (PyImage × GrayscaleData) :=
  (cvtColor_BGR2GRAY img).map fun gray =>
    (gray,
     { original_channels := match img.channels with | some c => c | none => 1
       output_channels := 1 })

/-- The metrics dict of `deskew` (image_operations.py, lines 227-231 and
250-255), restricted to the fields the claims mention; the
reason/timing strings are diagnostic text. -/
structure DeskewData where
  rotation_angle : ℚ
  skipped : Bool
  method : String
deriving Repr, DecidableEq

/-- Embedding of `deskew` (image_operations.py, lines 203-255).  The
projection-profile search `_find_best_rotation_angle` evaluates numpy
variances and is summarized by the `find_best_rotation_angle` oracle;
its result is always one of the tested angles `-10, -9.75, …, 10`, all
exact binary fractions, so the Python float comparison
`abs(best_angle) < 0.5` is the exact rational comparison used here.
`cv2.warpAffine` is the `rotate_by` oracle.  When the angle is too small
the input image is returned unchanged with `skipped = True` and
`rotation_angle` set to the computed `best_angle`; otherwise the rotated
image is returned with `skipped = False`. -/
def deskew (Img : Type) (rotate_by : Img → ℚ → Img)
    (find_best_rotation_angle : Img → ℚ) (img : Img) : Img × DeskewData :=
  let best_angle := find_best_rotation_angle img
  if |best_angle| < 1/2 then
    (img, { rotation_angle := best_angle, skipped := true, method := "projection_profile" })
  else
    (rotate_by img best_angle,
     { rotation_angle := best_angle, skipped := false, method := "projection_profile" })

/-! ## preprocessing_pipeline.py -/

/-- Embedding of `PreprocessingStep` (preprocessing_pipeline.py, lines
8-26): one record per pipeline stage.  `Bytes` and `Metrics` are the
encoded-image and metrics-dict types; the wall-clock
`processing_time_ms` field is real time and carries no information about
the claims, so it is omitted. -/
structure PipelineStep (Bytes Metrics : Type) where
  step_name : String
  status : String
  image_bytes : Option Bytes
  image_base64 : Option String
  data : Option Metrics
  error : Option String
deriving Repr, DecidableEq

/-- The failure step appended by the `except` handler of `run_pipeline`
(preprocessing_pipeline.py, lines 129-134):
`failed_at_step_{len(steps) + 1}` with the error text. -/
def failure_step (Bytes Metrics : Type) (n : Nat) (e : String) :
    PipelineStep Bytes Metrics :=
  { step_name := "failed_at_step_" ++ toString n
    status := "error"
    image_bytes := none
    image_base64 := none
    data := none
    error := some e }

/-- Embedding of `image_to_base64` (image_operations.py, lines 26-33):
encode the image with `image_to_bytes` at the given format (propagating
its failure) and wrap the base64 text in a data URI. -/
def image_to_base64 (Img Bytes : Type)
    (image_to_bytes : Img → String → Except String Bytes)
    (b64encode : Bytes → String) (img : Img) (fmt : String) :
    Except String String :=
  (image_to_bytes img fmt).map fun bs =>
    "data:image/" ++ fmt.toLower ++ ";base64," ++ b64encode bs

/-- One stage of the pipeline as `run_pipeline` wires it: the step name
recorded on success, the image operation, and the encoding format used
for this stage's bytes and base64. -/
structure StageSpec (Img Metrics : Type) where
  name : String
  run : Img → Except String (Img × Metrics)
  fmt : String

/-- The body of `run_pipeline`'s `try` block (preprocessing_pipeline.py,
lines 49-125) as a recursion over the stage list: each stage block runs
the operation on the threaded image, encodes the result (base64 only
when `include_base64`), and appends one success step; the first raise
anywhere in a block is caught by the single `except`, which appends
`failed_at_step_{len(steps) + 1}` and returns `none` for the final
image.  After the last block the final image bytes (held in `last`) are
returned alongside the steps. -/
def run_stages (Img Bytes Metrics : Type)
    (image_to_bytes : Img → String → Except String Bytes)
    (b64encode : Bytes → String) (include_base64 : Bool) :
    List (StageSpec Img Metrics) → List (PipelineStep Bytes Metrics) → Img →
    Option Bytes → List (PipelineStep Bytes Metrics) × Option Bytes
  | [], steps, _, last => (steps, last)
  | s :: rest, steps, img, _ =>
    match s.run img with
    | .error e => (steps ++ [failure_step Bytes Metrics (steps.length + 1) e], none)
    | .ok (img2, data) =>
      match image_to_bytes img2 s.fmt with
      | .error e => (steps ++ [failure_step Bytes Metrics (steps.length + 1) e], none)
      | .ok img_bytes =>
        match (if include_base64 then
                 (image_to_base64 Img Bytes image_to_bytes b64encode img2 s.fmt).map some
               else .ok none) with
        | .error e => (steps ++ [failure_step Bytes Metrics (steps.length + 1) e], none)
        | .ok img_base64 =>
          run_stages Img Bytes Metrics image_to_bytes b64encode include_base64 rest
            (steps ++ [{ step_name := s.name
                         status := "success"
                         image_bytes := some img_bytes
                         image_base64 := img_base64
                         data := some data
                         error := none }])
            img2 (some img_bytes)

/-- The fixed stage sequence of `run_pipeline` (preprocessing_pipeline.py,
lines 49-122): grayscale, contrast enhancement, denoising, binarization,
deskewing, the first four encoded with the default `'JPEG'` format and
the final deskewing stage with `'PNG'`. -/
def pipeline_stages (Img Metrics : Type)
    (grayscale_op enhance_contrast denoise binarize deskew_op :
      Img → Except String (Img × Metrics)) : List (StageSpec Img Metrics) :=
  [{ name := "grayscale", run := grayscale_op, fmt := "JPEG" },
   { name := "contrast_enhancement", run := enhance_contrast, fmt := "JPEG" },
   { name := "denoising", run := denoise, fmt := "JPEG" },
   { name := "binarization", run := binarize, fmt := "JPEG" },
   { name := "deskewing", run := deskew_op, fmt := "PNG" }]

/-- Embedding of `run_pipeline` (preprocessing_pipeline.py, lines
28-135), parameterized over the image operations it orchestrates
(`Img`, `Bytes`, `Metrics` stand for the numpy image, byte string and
metrics dict; `bytes_to_image`/`image_to_bytes` may raise as their cv2
encode/decode calls do, `b64encode` is `base64.b64encode(..).decode()`).
A raise from the initial decode is caught by the same `except` with zero
steps collected, producing `failed_at_step_1`. -/
def run_pipeline (Img Bytes Metrics : Type)
    (bytes_to_image : Bytes → Except String Img)
    (image_to_bytes : Img → String → Except String Bytes)
    (b64encode : Bytes → String)
    (grayscale_op enhance_contrast denoise binarize deskew_op :
      Img → Except String (Img × Metrics))
    (image_bytes : Bytes) (include_base64 : Bool) :
    List (PipelineStep Bytes Metrics) × Option Bytes :=
  match bytes_to_image image_bytes with
  | .error e => ([failure_step Bytes Metrics 1 e], none)
  | .ok img =>
    run_stages Img Bytes Metrics image_to_bytes b64encode include_base64
      (pipeline_stages Img Metrics grayscale_op enhance_contrast denoise binarize deskew_op)
      [] img none

/-! ## Specification-level pipeline (spec.md §4.2)

The following three definitions restate §4.2 of the spec in its own
vocabulary, to be proved equal to the embedded `run_pipeline`:
"Runs grayscale → enhance_contrast → denoise → binarize → deskew in that
fixed order, threading the output image of each stage into the next",
"On any stage raising an error, the pipeline stops immediately, appends
a failure-marked step recording which stage number failed and the error
text, and returns the steps collected so far with no final image". -/

/-- One stage attempt: either the stage (or the encoding of its output)
raises, or it yields its success step together with the image threaded
to the next stage and this stage's encoded bytes. -/
def stage_result (Img Bytes Metrics : Type)
    (image_to_bytes : Img → String → Except String Bytes)
    (b64encode : Bytes → String) (include_base64 : Bool)
    (s : StageSpec Img Metrics) (img : Img) :
    Except String (PipelineStep Bytes Metrics × Img × Bytes) :=
  match s.run img with
  | .error e => .error e
  | .ok (img2, data) =>
    match image_to_bytes img2 s.fmt with
    | .error e => .error e
    | .ok img_bytes =>
      match (if include_base64 then
               (image_to_base64 Img Bytes image_to_bytes b64encode img2 s.fmt).map some
             else .ok none) with
      | .error e => .error e
      | .ok img_base64 =>
        .ok ({ step_name := s.name
               status := "success"
               image_bytes := some img_bytes
               image_base64 := img_base64
               data := some data
               error := none }, img2, img_bytes)

/-- Thread the stages in order: collect each stage's success step,
feeding its output image to the next stage, and stop at the first
stage that raises, reporting its error; on full success report the last
stage's encoded bytes (`.ok none` only for an empty stage list). -/
def spec_thread_stages (Img Bytes Metrics : Type)
    (image_to_bytes : Img → String → Except String Bytes)
    (b64encode : Bytes → String) (include_base64 : Bool) :
    List (StageSpec Img Metrics) → Img →
    List (PipelineStep Bytes Metrics) × Except String (Option Bytes)
  | [], _ => ([], .ok none)
  | s :: rest, img =>
    match stage_result Img Bytes Metrics image_to_bytes b64encode include_base64 s img with
    | .error e => ([], .error e)
    | .ok (st, img2, img_bytes) =>
      let r := spec_thread_stages Img Bytes Metrics image_to_bytes b64encode include_base64 rest img2
      (st :: r.1,
       match r.2 with
       | .ok none => .ok (some img_bytes)
       | o => o)

/-- The pipeline as §4.2 of the spec describes it: decode, thread the
five stages in their fixed order, and either return the success steps
with the final image bytes, or the steps collected up to the first
failing stage followed by exactly one failure step carrying that
stage's number (count of collected steps plus one) and the error text,
with no final image. -/
def spec_run_pipeline (Img Bytes Metrics : Type)
    (bytes_to_image : Bytes → Except String Img)
    (image_to_bytes : Img → String → Except String Bytes)
    (b64encode : Bytes → String)
    (grayscale_op enhance_contrast denoise binarize deskew_op :
      Img → Except String (Img × Metrics))
    (image_bytes : Bytes) (include_base64 : Bool) :
    List (PipelineStep Bytes Metrics) × Option Bytes :=
  match bytes_to_image image_bytes with
  | .error e => ([failure_step Bytes Metrics 1 e], none)
  | .ok img =>
    let r := spec_thread_stages Img Bytes Metrics image_to_bytes b64encode include_base64
      (pipeline_stages Img Metrics grayscale_op enhance_contrast denoise binarize deskew_op) img
    match r.2 with
    | .error e => (r.1 ++ [failure_step Bytes Metrics (r.1.length + 1) e], none)
    | .ok final => (r.1, final)

/-- The character set `0123456789()` of the Pass-2 whitelist, as a list
of characters. -/
def score_charset : List Char :=
  ['0', '1', '2', '3', '4', '5', '6', '7', '8', '9', '(', ')']

/-! ## Theorems -/

/-- Helper: the success step produced by one successful stage attempt
carries the stage's name, the success status and no error. -/
theorem stage_result_ok_fields (Img Bytes Metrics : Type)
    (itb : Img → String → Except String Bytes) (enc : Bytes → String) (inc : Bool)
    (s : StageSpec Img Metrics) (img : Img) (st : PipelineStep Bytes Metrics)
    (img2 : Img) (bs : Bytes)
    (h : stage_result Img Bytes Metrics itb enc inc s img = .ok (st, img2, bs)) :
    st.step_name = s.name ∧ st.status = "success" ∧ st.error = none := by
  rw [stage_result] at h
  cases h2 : s.run img <;> rw [h2] at h <;> simp only [] at h
  · simp at h
  · next p2 =>
    obtain ⟨i2, d2⟩ := p2
    cases h3 : itb i2 s.fmt <;> rw [h3] at h <;> simp only [] at h
    · simp at h
    · cases h4 : (if inc then (image_to_base64 Img Bytes itb enc i2 s.fmt).map some
                  else (.ok none : Except String (Option String))) <;> rw [h4] at h
      · simp at h
      · simp only [Except.ok.injEq, Prod.mk.injEq] at h
        obtain ⟨h1a, -, -⟩ := h
        subst h1a
        exact ⟨rfl, rfl, rfl⟩

/-- Helper: every step collected by the spec-level threading is
success-marked and error-free. -/
theorem spec_thread_stages_status (Img Bytes Metrics : Type)
    (itb : Img → String → Except String Bytes) (enc : Bytes → String) (inc : Bool) :
    ∀ (ss : List (StageSpec Img Metrics)) (img : Img),
      ∀ st ∈ (spec_thread_stages Img Bytes Metrics itb enc inc ss img).1,
        st.status = "success" ∧ st.error = none := by
  intro ss
  induction ss with
  | nil => intro img st hst; simp [spec_thread_stages] at hst
  | cons s rest ih =>
    intro img st hst
    simp only [spec_thread_stages] at hst
    cases h1 : stage_result Img Bytes Metrics itb enc inc s img with
    | error e => rw [h1] at hst; simp at hst
    | ok p =>
      obtain ⟨st0, img2, bs⟩ := p
      rw [h1] at hst
      simp only [List.mem_cons] at hst
      rcases hst with rfl | hst
      · exact (stage_result_ok_fields Img Bytes Metrics itb enc inc s img st img2 bs h1).2
      · exact ih img2 st hst

/-- Helper: the collected steps are named after the stages, in stage
order (an initial segment of the stage-name list). -/
theorem spec_thread_stages_names (Img Bytes Metrics : Type)
    (itb : Img → String → Except String Bytes) (enc : Bytes → String) (inc : Bool) :
    ∀ (ss : List (StageSpec Img Metrics)) (img : Img),
      (spec_thread_stages Img Bytes Metrics itb enc inc ss img).1.map PipelineStep.step_name =
        (ss.map StageSpec.name).take
          (spec_thread_stages Img Bytes Metrics itb enc inc ss img).1.length := by
  intro ss
  induction ss with
  | nil => intro img; simp [spec_thread_stages]
  | cons s rest ih =>
    intro img
    simp only [spec_thread_stages]
    cases h1 : stage_result Img Bytes Metrics itb enc inc s img with
    | error e => simp
    | ok p =>
      obtain ⟨st0, img2, bs⟩ := p
      simp only [List.map_cons, List.length_cons, List.take_succ_cons, List.map]
      rw [(stage_result_ok_fields Img Bytes Metrics itb enc inc s img st0 img2 bs h1).1]
      rw [ih img2]

/-- Helper: when the threading succeeds with final bytes, every stage
contributed its step. -/
theorem spec_thread_stages_length (Img Bytes Metrics : Type)
    (itb : Img → String → Except String Bytes) (enc : Bytes → String) (inc : Bool) :
    ∀ (ss : List (StageSpec Img Metrics)) (img : Img) (b : Bytes),
      (spec_thread_stages Img Bytes Metrics itb enc inc ss img).2 = .ok (some b) →
        (spec_thread_stages Img Bytes Metrics itb enc inc ss img).1.length = ss.length := by
  intro ss
  induction ss with
  | nil => intro img b h; simp [spec_thread_stages] at h
  | cons s rest ih =>
    intro img b h
    rw [spec_thread_stages] at h ⊢
    cases h1 : stage_result Img Bytes Metrics itb enc inc s img with
    | error e => rw [h1] at h; simp at h
    | ok p =>
      obtain ⟨st0, img2, bs⟩ := p
      rw [h1] at h
      simp only [] at h ⊢
      simp only [List.length_cons, Nat.succ_inj]
      cases h4 : (spec_thread_stages Img Bytes Metrics itb enc inc rest img2).2 with
      | error e => rw [h4] at h; simp at h
      | ok ob =>
        cases ob with
        | none =>
          have hrest : rest = [] := by
            cases rest with
            | nil => rfl
            | cons s2 r2 =>
              rw [spec_thread_stages] at h4
              cases h5 : stage_result Img Bytes Metrics itb enc inc s2 img2 with
              | error e5 => rw [h5] at h4; simp at h4
              | ok p5 =>
                obtain ⟨st5, i5, b5⟩ := p5
                rw [h5] at h4
                simp only [] at h4
                cases h6 : (spec_thread_stages Img Bytes Metrics itb enc inc r2 i5).2 with
                | error e6 => rw [h6] at h4; simp at h4
                | ok ob6 => rw [h6] at h4; cases ob6 <;> simp at h4
          subst hrest
          simp [spec_thread_stages]
        | some b2 => exact ih img2 b2 h4

/-- Helper: the accumulator recursion of `run_stages` agrees with the
spec-level threading: the result is the accumulated steps followed by
the collected success steps, and on the first error exactly one failure
step numbered by the count of steps before it. -/
theorem run_stages_eq_spec (Img Bytes Metrics : Type)
    (itb : Img → String → Except String Bytes) (enc : Bytes → String) (inc : Bool)
    (ss : List (StageSpec Img Metrics)) :
    ∀ (steps : List (PipelineStep Bytes Metrics)) (img : Img) (last : Option Bytes),
      run_stages Img Bytes Metrics itb enc inc ss steps img last =
        (match (spec_thread_stages Img Bytes Metrics itb enc inc ss img).2 with
         | .error e =>
           (steps ++ (spec_thread_stages Img Bytes Metrics itb enc inc ss img).1 ++
             [failure_step Bytes Metrics
               (steps.length + (spec_thread_stages Img Bytes Metrics itb enc inc ss img).1.length + 1) e],
            none)
         | .ok none => (steps ++ (spec_thread_stages Img Bytes Metrics itb enc inc ss img).1, last)
         | .ok (some b) =>
           (steps ++ (spec_thread_stages Img Bytes Metrics itb enc inc ss img).1, some b)) := by
  induction ss with
  | nil =>
    intro steps img last
    simp [run_stages, spec_thread_stages]
  | cons s rest ih =>
    intro steps img last
    simp only [run_stages, spec_thread_stages, stage_result]
    cases h1 : s.run img with
    | error e => simp [h1]
    | ok p =>
      obtain ⟨img2, data⟩ := p
      cases h2 : itb img2 s.fmt with
      | error e => simp [h1, h2]
      | ok bs =>
        cases h3 : (if inc then (image_to_base64 Img Bytes itb enc img2 s.fmt).map some
                    else (.ok none : Except String (Option String))) with
        | error e => simp [h1, h2, h3]
        | ok b64 =>
          simp only [h1, h2, h3]
          rw [ih]
          cases h4 : (spec_thread_stages Img Bytes Metrics itb enc inc rest img2).2 with
          | error e =>
            simp [h4]
            congr 1
            omega
          | ok ob =>
            cases ob with
            | none => simp [h4]
            | some b => simp [h4]

/-- Claim C2: the pipeline runs grayscale, contrast enhancement,
denoising, binarization, deskewing in exactly that fixed order,
threading each stage's output image into the next stage; on the first
stage that raises it stops immediately, appends exactly one
failure-marked step recording the failing stage's number and the error
text after the success steps collected so far, and returns no final
image; when all stages succeed it returns five success-marked steps in
the fixed name order plus the final image bytes.  Stated as: the
embedded `run_pipeline` equals the spec-level `spec_run_pipeline`
(decode, thread the fixed stage list, stop at the first error with one
numbered failure step), the fixed stage list carries exactly the five
stage names in order, every collected step is success-marked, collected
steps are named by the stages in order, and a fully successful thread
has one step per stage. -/
theorem C2_pipeline_order_and_failure (Img Bytes Metrics : Type)
    (bytes_to_image : Bytes → Except String Img)
    (image_to_bytes : Img → String → Except String Bytes)
    (b64encode : Bytes → String)
    (grayscale_op enhance_contrast denoise binarize deskew_op :
      Img → Except String (Img × Metrics))
    (input : Bytes) (inc : Bool) :
    run_pipeline Img Bytes Metrics bytes_to_image image_to_bytes b64encode
        grayscale_op enhance_contrast denoise binarize deskew_op input inc =
      spec_run_pipeline Img Bytes Metrics bytes_to_image image_to_bytes b64encode
        grayscale_op enhance_contrast denoise binarize deskew_op input inc ∧
    (pipeline_stages Img Metrics grayscale_op enhance_contrast denoise binarize deskew_op).map
        StageSpec.name =
      ["grayscale", "contrast_enhancement", "denoising", "binarization", "deskewing"] ∧
    (∀ ss img,
      ∀ st ∈ (spec_thread_stages Img Bytes Metrics image_to_bytes b64encode inc ss img).1,
        st.status = "success" ∧ st.error = none) ∧
    (∀ ss img,
      (spec_thread_stages Img Bytes Metrics image_to_bytes b64encode inc ss img).1.map
          PipelineStep.step_name =
        (ss.map StageSpec.name).take
          (spec_thread_stages Img Bytes Metrics image_to_bytes b64encode inc ss img).1.length) ∧
    (∀ ss img b,
      (spec_thread_stages Img Bytes Metrics image_to_bytes b64encode inc ss img).2 = .ok (some b) →
        (spec_thread_stages Img Bytes Metrics image_to_bytes b64encode inc ss img).1.length =
          ss.length) := by
  refine ⟨?_, by simp [pipeline_stages],
    spec_thread_stages_status Img Bytes Metrics image_to_bytes b64encode inc,
    spec_thread_stages_names Img Bytes Metrics image_to_bytes b64encode inc,
    spec_thread_stages_length Img Bytes Metrics image_to_bytes b64encode inc⟩
  rw [run_pipeline, spec_run_pipeline]
  cases hd : bytes_to_image input with
  | error e => rfl
  | ok img =>
    simp only []
    rw [run_stages_eq_spec]
    cases h4 : (spec_thread_stages Img Bytes Metrics image_to_bytes b64encode inc
        (pipeline_stages Img Metrics grayscale_op enhance_contrast denoise binarize deskew_op)
        img).2 with
    | error e => simp
    | ok ob => cases ob with
      | none => simp
      | some b => simp



/-- Helper: membership in the extracted cell list, characterized by a
row/column index pair inside the grid. -/
theorem mem_extract_cells (hps vps : List Int) (cl : Cell) :
    cl ∈ extract_cells_from_grid hps vps ↔
      ∃ r, r < hps.length - 1 ∧ ∃ c, c < vps.length - 1 ∧
        cl = { row := r, col := c, x := vps.getD c 0, y := hps.getD r 0,
               width := vps.getD (c+1) 0 - vps.getD c 0,
               height := hps.getD (r+1) 0 - hps.getD r 0 } := by
  simp only [extract_cells_from_grid, List.mem_flatMap, List.mem_map, List.mem_range]
  constructor
  · rintro ⟨r, hr, c, hc, rfl⟩
    exact ⟨r, hr, c, hc, rfl⟩
  · rintro ⟨r, hr, c, hc, rfl⟩
    exact ⟨r, hr, c, hc, rfl⟩

/-- Helper: summing a constant over `List.range`. -/
theorem sum_map_const_range (n k : Nat) :
    ((List.range n).map fun _ => k).sum = n * k := by
  induction n with
  | zero => simp
  | succ m ih => rw [List.range_succ]; simp [ih, Nat.succ_mul]

/-- Helper: the extracted cell list has one cell per (row, column)
pair. -/
theorem length_extract_cells (hps vps : List Int) :
    (extract_cells_from_grid hps vps).length =
      (hps.length - 1) * (vps.length - 1) := by
  rw [extract_cells_from_grid, List.length_flatMap]
  have h1 : ((List.range (hps.length - 1)).map
      (List.length ∘ fun row_idx : Nat =>
        (List.range (vps.length - 1)).map fun col_idx : Nat =>
          ({ row := row_idx, col := col_idx, x := vps.getD col_idx 0,
             y := hps.getD row_idx 0,
             width := vps.getD (col_idx + 1) 0 - vps.getD col_idx 0,
             height := hps.getD (row_idx + 1) 0 - hps.getD row_idx 0 } : Cell))) =
      ((List.range (hps.length - 1)).map fun _ => vps.length - 1) := by
    apply List.map_congr_left
    intro r _
    simp
  rw [h1, sum_map_const_range]

/-- Helper: `countP` distributes over `flatMap` as a sum. -/
theorem countP_flatMap_list {α β : Type} (l : List α) (f : α → List β) (p : β → Bool) :
    (l.flatMap f).countP p = (l.map fun a => (f a).countP p).sum := by
  induction l with
  | nil => simp
  | cons a l ih => simp [List.flatMap_cons, List.countP_append, ih]

/-- Helper: `List.range n` contains each value below `n` exactly
once. -/
theorem countP_beq_range (n c : Nat) :
    (List.range n).countP (fun x => x == c) = if c < n then 1 else 0 := by
  induction n with
  | zero => simp
  | succ m ih =>
    rw [List.range_succ, List.countP_append, ih]
    by_cases h1 : c < m
    · have h2 : ¬(m == c) = true := by simp; omega
      have h3 : c < m + 1 := by omega
      simp [h1, h2, h3]
    · by_cases h2 : m = c
      · subst h2
        simp [h1]
      · have h3 : ¬(m == c) = true := by simp [h2]
        have h4 : ¬ c < m + 1 := by omega
        simp [h1, h3, h4]

/-- Helper: summing an indicator over `List.range`. -/
theorem sum_ite_eq_range (n r : Nat) :
    ((List.range n).map fun x => if x = r then 1 else 0).sum =
      if r < n then 1 else 0 := by
  induction n with
  | zero => simp
  | succ m ih =>
    rw [List.range_succ, List.map_append, List.sum_append, ih]
    by_cases h1 : r < m
    · have h2 : m ≠ r := by omega
      have h3 : r < m + 1 := by omega
      simp [h1, h2, h3]
    · by_cases h2 : m = r
      · subst h2
        simp [h1]
      · have h3 : ¬ r < m + 1 := by omega
        simp [h1, h2, h3]

/-- Helper: each in-range (row, column) pair occurs in exactly one
extracted cell. -/
theorem countP_extract_cells (hps vps : List Int) (r c : Nat)
    (hr : r < hps.length - 1) (hc : c < vps.length - 1) :
    (extract_cells_from_grid hps vps).countP
        (fun cl => cl.row == r && cl.col == c) = 1 := by
  rw [extract_cells_from_grid, countP_flatMap_list]
  have h1 : ((List.range (hps.length - 1)).map fun r' =>
      ((List.range (vps.length - 1)).map fun col_idx : Nat =>
        ({ row := r', col := col_idx, x := vps.getD col_idx 0,
           y := hps.getD r' 0,
           width := vps.getD (col_idx + 1) 0 - vps.getD col_idx 0,
           height := hps.getD (r' + 1) 0 - hps.getD r' 0 } : Cell)).countP
          (fun cl => cl.row == r && cl.col == c)) =
      ((List.range (hps.length - 1)).map fun r' => if r' = r then 1 else 0) := by
    apply List.map_congr_left
    intro r' _
    rw [List.countP_map]
    by_cases h : r' = r
    · subst h
      have he : ((List.range (vps.length - 1)).countP
          ((fun cl : Cell => cl.row == r' && cl.col == c) ∘ fun col_idx : Nat =>
            ({ row := r', col := col_idx, x := vps.getD col_idx 0,
               y := hps.getD r' 0,
               width := vps.getD (col_idx + 1) 0 - vps.getD col_idx 0,
               height := hps.getD (r' + 1) 0 - hps.getD r' 0 } : Cell))) =
          ((List.range (vps.length - 1)).countP fun x => x == c) := by
        apply List.countP_congr
        intro x _
        simp
      rw [he, countP_beq_range]
      simp [hc]
    · have hz : ((List.range (vps.length - 1)).countP
          ((fun cl : Cell => cl.row == r && cl.col == c) ∘ fun col_idx : Nat =>
            ({ row := r', col := col_idx, x := vps.getD col_idx 0,
               y := hps.getD r' 0,
               width := vps.getD (col_idx + 1) 0 - vps.getD col_idx 0,
               height := hps.getD (r' + 1) 0 - hps.getD r' 0 } : Cell))) = 0 := by
        apply List.countP_eq_zero.mpr
        intro a _
        simp [h]
      rw [hz]
      simp [h]
  rw [h1, sum_ite_eq_range]
  simp [hr]

/-- Helper: a `Nat.max` fold dominates its initial value. -/
theorem le_foldl_max (l : List Nat) : ∀ a : Nat, a ≤ l.foldl Nat.max a := by
  induction l with
  | nil => intro a; simp
  | cons b l ih => intro a; exact le_trans (Nat.le_max_left a b) (ih (Nat.max a b))

/-- Helper: a `Nat.max` fold dominates every list element. -/
theorem mem_le_foldl_max (l : List Nat) :
    ∀ (a x : Nat), x ∈ l → x ≤ l.foldl Nat.max a := by
  induction l with
  | nil => intro a x hx; cases hx
  | cons b l ih =>
    intro a x hx
    rcases List.mem_cons.mp hx with rfl | hx2
    · exact le_trans (Nat.le_max_right a x) (le_foldl_max l (Nat.max a x))
    · exact ih (Nat.max a b) x hx2

/-- Helper: a `Nat.max` fold is bounded by any common upper bound. -/
theorem foldl_max_le (l : List Nat) :
    ∀ (a m : Nat), a ≤ m → (∀ x ∈ l, x ≤ m) → l.foldl Nat.max a ≤ m := by
  induction l with
  | nil => intro a m ha _; simpa using ha
  | cons b l ih =>
    intro a m ha h
    exact ih (Nat.max a b) m (Nat.max_le.mpr ⟨ha, h b (List.mem_cons_self b l)⟩)
      (fun x hx => h x (List.mem_cons_of_mem b hx))

/-- Helper: the derived `num_rows` of the extracted cells is the count
of horizontal positions minus one. -/
theorem num_rows_extract (hps vps : List Int) (hh : 2 ≤ hps.length) (hv : 2 ≤ vps.length) :
    num_rows_of (extract_cells_from_grid hps vps) = hps.length - 1 := by
  have hlen := length_extract_cells hps vps
  have hpos : 0 < (extract_cells_from_grid hps vps).length := by
    rw [hlen]
    apply Nat.mul_pos <;> omega
  have hne : ¬ (extract_cells_from_grid hps vps).isEmpty = true := by
    rw [List.isEmpty_iff]
    intro h
    rw [h] at hpos
    simp at hpos
  rw [num_rows_of, if_neg hne]
  have hmem : (hps.length - 2) ∈ (extract_cells_from_grid hps vps).map Cell.row := by
    apply List.mem_map.mpr
    refine ⟨{ row := hps.length - 2, col := 0, x := vps.getD 0 0,
              y := hps.getD (hps.length - 2) 0,
              width := vps.getD (0 + 1) 0 - vps.getD 0 0,
              height := hps.getD (hps.length - 2 + 1) 0 - hps.getD (hps.length - 2) 0 },
            ?_, rfl⟩
    exact (mem_extract_cells hps vps _).mpr ⟨hps.length - 2, by omega, 0, by omega, rfl⟩
  have hub : ∀ x ∈ (extract_cells_from_grid hps vps).map Cell.row, x ≤ hps.length - 2 := by
    intro x hx
    obtain ⟨cl, hcl, rfl⟩ := List.mem_map.mp hx
    obtain ⟨r, hr, c, hc, rfl⟩ := (mem_extract_cells hps vps cl).mp hcl
    show r ≤ hps.length - 2
    omega
  have heq : listMax ((extract_cells_from_grid hps vps).map Cell.row) = hps.length - 2 :=
    le_antisymm (foldl_max_le _ 0 _ (by omega) hub) (mem_le_foldl_max _ 0 _ hmem)
  rw [heq]
  omega

/-- Helper: the derived `num_cols` of the extracted cells is the count
of vertical positions minus one. -/
theorem num_cols_extract (hps vps : List Int) (hh : 2 ≤ hps.length) (hv : 2 ≤ vps.length) :
    num_cols_of (extract_cells_from_grid hps vps) = vps.length - 1 := by
  have hlen := length_extract_cells hps vps
  have hpos : 0 < (extract_cells_from_grid hps vps).length := by
    rw [hlen]
    apply Nat.mul_pos <;> omega
  have hne : ¬ (extract_cells_from_grid hps vps).isEmpty = true := by
    rw [List.isEmpty_iff]
    intro h
    rw [h] at hpos
    simp at hpos
  rw [num_cols_of, if_neg hne]
  have hmem : (vps.length - 2) ∈ (extract_cells_from_grid hps vps).map Cell.col := by
    apply List.mem_map.mpr
    refine ⟨{ row := 0, col := vps.length - 2, x := vps.getD (vps.length - 2) 0,
              y := hps.getD 0 0,
              width := vps.getD (vps.length - 2 + 1) 0 - vps.getD (vps.length - 2) 0,
              height := hps.getD (0 + 1) 0 - hps.getD 0 0 },
            ?_, rfl⟩
    exact (mem_extract_cells hps vps _).mpr ⟨0, by omega, vps.length - 2, by omega, rfl⟩
  have hub : ∀ x ∈ (extract_cells_from_grid hps vps).map Cell.col, x ≤ vps.length - 2 := by
    intro x hx
    obtain ⟨cl, hcl, rfl⟩ := List.mem_map.mp hx
    obtain ⟨r, hr, c, hc, rfl⟩ := (mem_extract_cells hps vps cl).mp hcl
    show c ≤ vps.length - 2
    omega
  have heq : listMax ((extract_cells_from_grid hps vps).map Cell.col) = vps.length - 2 :=
    le_antisymm (foldl_max_le _ 0 _ (by omega) hub) (mem_le_foldl_max _ 0 _ hmem)
  rw [heq]
  omega

/-- Claim C1: for every sorted list of at least 2 horizontal line
positions and at least 2 vertical line positions, the grid built by
cell extraction satisfies the completeness invariant: `num_rows` equals
the count of horizontal positions minus 1, `num_cols` equals the count
of vertical positions minus 1, the cell list has exactly
`num_rows * num_cols` cells, and every (row, col) pair with
`row < num_rows` and `col < num_cols` occurs in exactly one cell, that
cell's bounding box spanning from the row-th to the (row+1)-th
horizontal position and from the col-th to the (col+1)-th vertical
position. -/
theorem C1_grid_completeness (hps vps : List Int)
    (hh : 2 ≤ hps.length) (hv : 2 ≤ vps.length)
    (_hsorted : hps.Sorted (fun a b => a ≤ b)) (_vsorted : vps.Sorted (fun a b => a ≤ b))
    (hl vl : List (Int × Int × Int × Int)) :
    (TableGrid.make hl vl (extract_cells_from_grid hps vps)).num_rows = hps.length - 1 ∧
    (TableGrid.make hl vl (extract_cells_from_grid hps vps)).num_cols = vps.length - 1 ∧
    (TableGrid.make hl vl (extract_cells_from_grid hps vps)).cells.length =
      (hps.length - 1) * (vps.length - 1) ∧
    ∀ r c, r < hps.length - 1 → c < vps.length - 1 →
      ((TableGrid.make hl vl (extract_cells_from_grid hps vps)).cells.countP
          (fun cl => cl.row == r && cl.col == c) = 1 ∧
       ∀ cl ∈ (TableGrid.make hl vl (extract_cells_from_grid hps vps)).cells,
         cl.row = r → cl.col = c →
           cl.x = vps.getD c 0 ∧ cl.y = hps.getD r 0 ∧
           cl.x + cl.width = vps.getD (c + 1) 0 ∧
           cl.y + cl.height = hps.getD (r + 1) 0) := by
  refine ⟨num_rows_extract hps vps hh hv, num_cols_extract hps vps hh hv,
    length_extract_cells hps vps, ?_⟩
  intro r c hr hc
  refine ⟨countP_extract_cells hps vps r c hr hc, ?_⟩
  intro cl hcl hrow hcol
  obtain ⟨r2, hr2, c2, hc2, rfl⟩ := (mem_extract_cells hps vps cl).mp hcl
  have hrr : r2 = r := hrow
  have hcc : c2 = c := hcol
  subst hrr
  subst hcc
  refine ⟨rfl, rfl, ?_, ?_⟩
  · show vps.getD c2 0 + (vps.getD (c2 + 1) 0 - vps.getD c2 0) = vps.getD (c2 + 1) 0
    omega
  · show hps.getD r2 0 + (hps.getD (r2 + 1) 0 - hps.getD r2 0) = hps.getD (r2 + 1) 0
    omega

/-- Witness for C1 at the concrete position lists `[0, 10]`,
`[0, 10]`: a 1x1 grid with exactly one (0,0) cell. -/
theorem C1_witness :
    (TableGrid.make [] [] (extract_cells_from_grid [0, 10] [0, 10])).num_rows = 1 ∧
    (TableGrid.make [] [] (extract_cells_from_grid [0, 10] [0, 10])).cells.countP
        (fun cl => cl.row == 0 && cl.col == 0) = 1 :=
  ⟨(C1_grid_completeness [0, 10] [0, 10] (by decide) (by decide) (by decide) (by decide)
      [] []).1,
   ((C1_grid_completeness [0, 10] [0, 10] (by decide) (by decide) (by decide) (by decide)
      [] []).2.2.2 0 0 (by decide) (by decide)).1⟩

/-- Claim C3: for every input on which fewer than 2 line positions are
found on either axis, `detect_table` returns the no-grid result
(`none`), and it never returns a grid with fewer than 2 positions on an
axis: any returned grid has at least 2 horizontal and 2 vertical lines
and a complete `num_rows x num_cols` cell list.  `detect_table` is a
total function of its inputs, so no exception is possible. -/
theorem C3_no_grid_on_few_lines (width height : Int) (h_contours v_contours : List PyRect) :
    (detect_table width height h_contours v_contours = none ↔
      (find_line_positions h_contours true (width / 8)).length < 2 ∨
      (find_line_positions v_contours false (height / 8)).length < 2) ∧
    ∀ g, detect_table width height h_contours v_contours = some g →
      2 ≤ g.horizontal_lines.length ∧ 2 ≤ g.vertical_lines.length ∧
      g.cells.length = (g.horizontal_lines.length - 1) * (g.vertical_lines.length - 1) ∧
      g.num_rows = g.horizontal_lines.length - 1 ∧
      g.num_cols = g.vertical_lines.length - 1 := by
  constructor
  · rw [detect_table]
    by_cases h : (find_line_positions h_contours true (width / 8)).length < 2 ∨
        (find_line_positions v_contours false (height / 8)).length < 2
    · simp [h]
    · simp [h]
  · intro g hg
    rw [detect_table] at hg
    by_cases h : (find_line_positions h_contours true (width / 8)).length < 2 ∨
        (find_line_positions v_contours false (height / 8)).length < 2
    · simp [h] at hg
    · simp only [if_neg h] at hg
      have h2 := not_or.mp h
      have hhl : 2 ≤ (find_line_positions h_contours true (width / 8)).length := by omega
      have hvl : 2 ≤ (find_line_positions v_contours false (height / 8)).length := by omega
      obtain rfl := (Option.some_inj.mp hg)
      refine ⟨by simpa [TableGrid.make] using hhl, by simpa [TableGrid.make] using hvl,
        ?_, ?_, ?_⟩
      · simp only [TableGrid.make, List.length_map]
        exact length_extract_cells _ _
      · simp only [TableGrid.make, List.length_map]
        exact num_rows_extract _ _ hhl hvl
      · simp only [TableGrid.make, List.length_map]
        exact num_cols_extract _ _ hhl hvl

/-- Claim C4: the Pass-1 player-name validity predicate accepts
"Brad D" at row index 7, rejects "HANDICAP" at row index 2, rejects
"47" at row index 9, and rejects "A" at row index 9. -/
theorem C4_name_heuristic_fixtures :
    is_player_name "Brad D" 7 = true ∧ is_player_name "HANDICAP" 2 = false ∧
    is_player_name "47" 9 = false ∧ is_player_name "A" 9 = false :=
  ⟨by decide, by decide, by decide, by decide⟩

/-- Helper: an ASCII digit character is one of `'0'`-`'9'`. -/
theorem isDigit_mem_digits (c : Char) (h : c.isDigit = true) :
    c ∈ ['0', '1', '2', '3', '4', '5', '6', '7', '8', '9'] := by
  simp only [Char.isDigit, Bool.and_eq_true, decide_eq_true_eq] at h
  obtain ⟨h1, h2⟩ := h
  have hn1 : 48 ≤ c.val.toNat := h1
  have hn2 : c.val.toNat ≤ 57 := h2
  interval_cases hv : c.val.toNat <;>
    first
    | (rw [show c = '0' from Char.ext (UInt32.ext hv)]; decide)
    | (rw [show c = '1' from Char.ext (UInt32.ext hv)]; decide)
    | (rw [show c = '2' from Char.ext (UInt32.ext hv)]; decide)
    | (rw [show c = '3' from Char.ext (UInt32.ext hv)]; decide)
    | (rw [show c = '4' from Char.ext (UInt32.ext hv)]; decide)
    | (rw [show c = '5' from Char.ext (UInt32.ext hv)]; decide)
    | (rw [show c = '6' from Char.ext (UInt32.ext hv)]; decide)
    | (rw [show c = '7' from Char.ext (UInt32.ext hv)]; decide)
    | (rw [show c = '8' from Char.ext (UInt32.ext hv)]; decide)
    | (rw [show c = '9' from Char.ext (UInt32.ext hv)]; decide)

/-- Helper: every non-ASCII Python digit character lies outside the
ASCII range. -/
theorem py_nonascii_digits_not_ascii :
    ∀ c ∈ py_nonascii_digits, 127 < c.toNat := by
  decide

/-- Counterexample for C5 as stated: the recognizer output `"²"`
(superscript two, which Python's `str.isdigit` accepts) passes the
score-mode filter unchanged, so the returned Pass-2 cell text contains
a character outside the set `0123456789()`. -/
theorem C5_unicode_digit_cex :
    ocr_cell (.ok "²") "score" = some "²" ∧ ('²' : Char) ∉ score_charset :=
  ⟨by decide, by decide⟩

/-- Claim C5 (amended): for every recognizer outcome in score (digit)
mode, every character of the text returned by `ocr_cell` after its
character filtering satisfies Python's `str.isdigit` or is a
parenthesis; in particular every ASCII character of the returned text
is from the set `0123456789()`.  (Non-ASCII Unicode digit characters
such as `'²'` also pass the filter, which is what refutes the original
all-characters claim.) -/
theorem C5_score_mode_charset (recognized : Except String String) (t : String)
    (h : ocr_cell recognized "score" = some t) :
    ∀ c ∈ t.data,
      (py_isdigit c = true ∨ c = '(' ∨ c = ')') ∧
      (c.toNat ≤ 127 → c ∈ score_charset) := by
  intro c hc
  cases recognized with
  | error e => simp [ocr_cell] at h
  | ok raw =>
    simp only [ocr_cell] at h
    split at h
    · split at h
      · cases h
      · next he =>
        obtain rfl := Option.some_inj.mp h
        have hmem : c ∈ (py_strip raw).data.filter score_char_ok := hc
        have hok : score_char_ok c = true := (List.mem_filter.mp hmem).2
        simp only [score_char_ok, Bool.or_eq_true, beq_iff_eq] at hok
        refine ⟨by tauto, ?_⟩
        intro hascii
        rcases hok with (hd | hp) | hp
        · simp only [py_isdigit, Bool.or_eq_true] at hd
          rcases hd with hd | hd
          · have hmd := isDigit_mem_digits c hd
            simp only [score_charset, List.mem_cons] at hmd ⊢
            tauto
          · have hna : 127 < c.toNat :=
              py_nonascii_digits_not_ascii c (by simpa using hd)
            omega
        · subst hp; decide
        · subst hp; decide
    · next hmode => exact absurd trivial hmode

/-- Witness for the amended C5 at the concrete recognizer output
`" 4a7 "`: the filtered cell text is `"47"` and its (ASCII) character
`'4'` lies in the score character set. -/
theorem C5_witness :
    ocr_cell (.ok " 4a7 ") "score" = some "47" ∧ ('4' : Char) ∈ score_charset :=
  ⟨by decide,
   (C5_score_mode_charset (.ok " 4a7 ") "47" (by decide) '4' (by decide)).2 (by decide)⟩

/-- Claim C6: a cell whose recognized text is empty after filtering is
returned by `ocr_cell` as the explicit missing marker `none`, never as
`some ""`; and Pass-2 row extraction gives every identified player row
exactly one value slot per column from 0 to the grid's maximum column
index, each slot holding exactly the outcome of its own cell's OCR
(`none` for a missing cell or a recognition miss), so a miss affects
neither sibling cells nor the rest of the row. -/
theorem C6_missing_marker_and_row_slots (cells : List Cell) (player_rows : List Nat)
    (recognized : Cell → Except String String) (_hne : cells ≠ []) :
    (∀ (r : Except String String) (mode : String), ocr_cell r mode ≠ some "") ∧
    (∀ raw : String, String.mk ((py_strip raw).data.filter score_char_ok) = "" →
      ocr_cell (.ok raw) "score" = none) ∧
    (extract_player_rows cells player_rows recognized).map PlayerRow.row = player_rows ∧
    (∀ p ∈ extract_player_rows cells player_rows recognized,
      p.all_values.length = max_col cells + 1 ∧
      ∀ col, col ≤ max_col cells →
        p.all_values.getD col none =
          (find_cell cells p.row col).bind fun cell => ocr_cell (recognized cell) "score") := by
  refine ⟨?_, ?_, ?_, ?_⟩
  · intro r mode h
    cases r with
    | error e => simp [ocr_cell] at h
    | ok raw =>
      simp only [ocr_cell] at h
      split at h
      · split at h
        · cases h
        · next he => exact he (Option.some_inj.mp h)
      · split at h
        · next he => cases h
        · next he => exact he (Option.some_inj.mp h)
  · intro raw hemp
    simp [ocr_cell, hemp]
  · induction player_rows with
    | nil => rfl
    | cons a l ih =>
      simp only [extract_player_rows, List.map_cons] at ih ⊢
      rw [ih]
  · intro p hp
    simp only [extract_player_rows, List.mem_map] at hp
    obtain ⟨pr, hpr, rfl⟩ := hp
    constructor
    · show ((List.range (max_col cells + 1)).map _).length = max_col cells + 1
      simp
    · intro col hcol
      have hlt : col < max_col cells + 1 := by omega
      show ((List.range (max_col cells + 1)).map _).getD col none = _
      rw [List.getD_eq_getElem?_getD, List.getElem?_map, List.getElem?_range hlt]
      simp only [Option.map_some, Option.getD_some]
      cases hfc : find_cell cells pr col <;> simp [hfc]

/-- Witness for C6 at a one-cell grid with a single player row. -/
theorem C6_witness :
    (extract_player_rows [{ row := 0, col := 0, x := 0, y := 0, width := 10, height := 10 }]
      [0] (fun _ => .ok "5")).map PlayerRow.row = [0] :=
  (C6_missing_marker_and_row_slots
    [{ row := 0, col := 0, x := 0, y := 0, width := 10, height := 10 }]
    [0] (fun _ => .ok "5") (by simp)).2.2.1

/-- Counterexample for C7 as stated: with a computed best angle of
0.25° (below the 0.5° threshold) the deskew step skips rotation but
reports `rotation_angle = 0.25`, not 0. -/
theorem C7_deskew_skip_reports_angle_cex :
    (deskew Unit (fun i _ => i) (fun _ => 1/4) ()).2.skipped = true ∧
    ¬ (deskew Unit (fun i _ => i) (fun _ => 1/4) ()).2.rotation_angle = 0 := by
  have hcond : |(1/4 : ℚ)| < 1/2 := by
    rw [abs_of_nonneg (by norm_num)]
    norm_num
  simp only [one_div] at hcond
  constructor
  · simp [deskew, hcond]
  · simp [deskew, hcond]

/-- Claim C7 (amended): when the computed best rotation angle has
absolute value below the 0.5° significance threshold, `deskew` skips
rotation, returning the input image unchanged with `skipped = true`,
and reports the computed angle (not 0) as `rotation_angle`; when the
angle is at or above the threshold it rotates by the computed angle and
reports it. -/
theorem C7_deskew_threshold (Img : Type) (rotate_by : Img → ℚ → Img)
    (find_best_rotation_angle : Img → ℚ) (img : Img) :
    (|find_best_rotation_angle img| < 1/2 →
      deskew Img rotate_by find_best_rotation_angle img =
        (img, { rotation_angle := find_best_rotation_angle img, skipped := true,
                method := "projection_profile" })) ∧
    (1/2 ≤ |find_best_rotation_angle img| →
      deskew Img rotate_by find_best_rotation_angle img =
        (rotate_by img (find_best_rotation_angle img),
         { rotation_angle := find_best_rotation_angle img, skipped := false,
           method := "projection_profile" })) := by
  constructor
  · intro h
    simp only [one_div] at h
    simp [deskew, h]
  · intro h
    simp only [one_div] at h
    simp [deskew, not_lt.mpr h]

/-- Counterexample for C8 as stated: on a 1-channel (2-dimensional)
input, `grayscale` raises, because `cv2.cvtColor(img, COLOR_BGR2GRAY)`
rejects a non-BGR input, so the operation does not succeed for every
channel count. -/
theorem C8_grayscale_raises_on_gray_input_cex :
    grayscale { height := 100, width := 80, channels := none } =
      .error "cvtColor: Invalid number of channels in input image" := rfl

/-- Claim C8 (amended): for every 3- or 4-channel input image,
`grayscale` succeeds and returns the 2-dimensional (exactly 1-channel)
image of the same pixel size, with metrics recording the original
channel count and 1 output channel; on other shapes (for instance an
already-grayscale 2-dimensional input) the underlying conversion
raises. -/
theorem C8_grayscale_channels (img : PyImage)
    (h : img.channels = some 3 ∨ img.channels = some 4) :
    grayscale img =
      .ok ({ img with channels := none },
           { original_channels := img.channels.getD 1, output_channels := 1 }) ∧
    PyImage.channelCount { img with channels := none } = 1 := by
  rcases h with h | h <;>
    simp [grayscale, cvtColor_BGR2GRAY, h, PyImage.channelCount, Except.map]

/-- Witness for C8 at a concrete 3-channel image. -/
theorem C8_witness :
    grayscale { height := 10, width := 10, channels := some 3 } =
      .ok ({ height := 10, width := 10, channels := none },
           { original_channels := 3, output_channels := 1 }) :=
  (C8_grayscale_channels { height := 10, width := 10, channels := some 3 } (Or.inl rfl)).1

/-- Counterexample for C10 as stated: for a nonnegative cell bounding
box whose origin lies beyond the image edge (x = 20 in a width-10
image), the clamped rectangle has `x1 = 20 > 10 = x2`, so
`0 <= x1 <= x2 <= width` fails. -/
theorem C10_inflate_cex :
    ¬ ((extract_cell_inflated 10 10
          { row := 0, col := 0, x := 20, y := 20, width := 0, height := 0 } (1/5)).x1 ≤
        (extract_cell_inflated 10 10
          { row := 0, col := 0, x := 20, y := 20, width := 0, height := 0 } (1/5)).x2) := by
  norm_num [extract_cell_inflated, int_trunc]

/-- Claim C10 (amended): for every image and every nonnegative cell
bounding box and inflation factor, the inflated cell extraction clamps
its crop rectangle so that `0 <= x1`, `0 <= y1`, `x2 <= width` and
`y2 <= height` always hold, and additionally `x1 <= x2` (resp.
`y1 <= y2`) whenever the cell's origin lies within the image
(`cell.x <= width`, resp. `cell.y <= height`); the numpy slice at this
rectangle therefore stays within the image bounds. -/
theorem C10_inflate_clamps (img_h img_w : Int) (cell : Cell) (inflation : ℚ)
    (hx : 0 ≤ cell.x) (hy : 0 ≤ cell.y) (hw : 0 ≤ cell.width) (hh : 0 ≤ cell.height)
    (hq : 0 ≤ inflation) :
    0 ≤ (extract_cell_inflated img_h img_w cell inflation).x1 ∧
    0 ≤ (extract_cell_inflated img_h img_w cell inflation).y1 ∧
    (extract_cell_inflated img_h img_w cell inflation).x2 ≤ img_w ∧
    (extract_cell_inflated img_h img_w cell inflation).y2 ≤ img_h ∧
    (cell.x ≤ img_w → (extract_cell_inflated img_h img_w cell inflation).x1 ≤
      (extract_cell_inflated img_h img_w cell inflation).x2) ∧
    (cell.y ≤ img_h → (extract_cell_inflated img_h img_w cell inflation).y1 ≤
      (extract_cell_inflated img_h img_w cell inflation).y2) := by
  have hwq : (0 : ℚ) ≤ (cell.width : ℚ) * inflation :=
    mul_nonneg (by exact_mod_cast hw) hq
  have hhq : (0 : ℚ) ≤ (cell.height : ℚ) * inflation :=
    mul_nonneg (by exact_mod_cast hh) hq
  have hix : 0 ≤ int_trunc ((cell.width : ℚ) * inflation) := by
    rw [int_trunc, if_pos hwq]
    exact Int.floor_nonneg.mpr hwq
  have hiy : 0 ≤ int_trunc ((cell.height : ℚ) * inflation) := by
    rw [int_trunc, if_pos hhq]
    exact Int.floor_nonneg.mpr hhq
  simp only [extract_cell_inflated]
  refine ⟨le_max_left _ _, le_max_left _ _, min_le_left _ _, min_le_left _ _, ?_, ?_⟩
  · intro hxw
    apply le_min
    · apply max_le (le_trans hx hxw)
      omega
    · apply max_le
      · omega
      · omega
  · intro hyh
    apply le_min
    · apply max_le (le_trans hy hyh)
      omega
    · apply max_le
      · omega
      · omega

/-- Witness for the amended C10 at a concrete in-bounds cell. -/
theorem C10_witness :
    0 ≤ (extract_cell_inflated 10 10
          { row := 0, col := 0, x := 2, y := 2, width := 4, height := 4 } (1/5)).x1 ∧
    0 ≤ (extract_cell_inflated 10 10
          { row := 0, col := 0, x := 2, y := 2, width := 4, height := 4 } (1/5)).y1 ∧
    (extract_cell_inflated 10 10
      { row := 0, col := 0, x := 2, y := 2, width := 4, height := 4 } (1/5)).x2 ≤ 10 ∧
    (extract_cell_inflated 10 10
      { row := 0, col := 0, x := 2, y := 2, width := 4, height := 4 } (1/5)).y2 ≤ 10 ∧
    ((2 : Int) ≤ 10 → (extract_cell_inflated 10 10
      { row := 0, col := 0, x := 2, y := 2, width := 4, height := 4 } (1/5)).x1 ≤
      (extract_cell_inflated 10 10
        { row := 0, col := 0, x := 2, y := 2, width := 4, height := 4 } (1/5)).x2) ∧
    ((2 : Int) ≤ 10 → (extract_cell_inflated 10 10
      { row := 0, col := 0, x := 2, y := 2, width := 4, height := 4 } (1/5)).y1 ≤
      (extract_cell_inflated 10 10
        { row := 0, col := 0, x := 2, y := 2, width := 4, height := 4 } (1/5)).y2) :=
  C10_inflate_clamps 10 10 { row := 0, col := 0, x := 2, y := 2, width := 4, height := 4 }
    (1/5) (by norm_num) (by norm_num) (by norm_num) (by norm_num) (by norm_num)

end WhoWon
